import Mathlib

/-!
Verification development for the Royal_Chess server (`app.js`).

The server-side session/room coordinator is shallowly embedded here:
each Socket.IO event handler becomes a pure Lean function from the
relevant state (a `Room`, or the whole `ServerState`) to the updated
state together with the list of emitted protocol messages.  The rules
engine (`chess.js`) is an external collaborator; it is modelled as an
abstract `Engine` record whose fields are exactly the methods the
server calls on the `chess` object.  Timestamps (`Date.now()`) and the
randomly generated session ids are passed in explicitly.
-/

namespace RoyalChess

abbrev SocketId := String

/-- The two seat colours; `chess.turn()` returns 'w' / 'b'. -/
inductive Color where
  | white
  | black
deriving DecidableEq, Repr

def Color.other : Color → Color
  | .white => .black
  | .black => .white

/-- The capabilities of the external rules engine (`chess.js`) that the
server uses: `move` returns `none` on an illegal move (the JS library
either returns `null` or throws; both paths end in `moveError`), or the
updated position together with the SAN notation and moving colour. -/
structure Engine (Pos : Type) where
  move : Pos → String → Option (Pos × String × Color)
  turn : Pos → Color
  fen : Pos → String
  gameOver : Pos → Bool
  inCheckmate : Pos → Bool
  inStalemate : Pos → Bool
  inThreefold : Pos → Bool
  insufficientMaterial : Pos → Bool
  inDraw : Pos → Bool
  start : Pos

/-- One entry of `room.moveHistory`: `{move: result.san, color, timestamp}`. -/
structure MoveRecord where
  move : String
  color : Color
  timestamp : Nat
deriving DecidableEq, Repr

/-- One entry of `room.chatHistory`. -/
structure ChatMsg where
  id : Nat
  message : String
  playerRole : String
  timestamp : Nat
  socketId : SocketId
deriving DecidableEq, Repr

/-- A room as created in `getOrCreateRoom`: position, the two optional
seats (`players.white` / `players.black`), spectators, histories and
timestamps.  Note there is no field recording a game-over/resigned
status and no field recording a pending draw offer — the source keeps
neither. -/
structure Room (Pos : Type) where
  chess : Pos
  white : Option SocketId := none
  black : Option SocketId := none
  currentPlayer : Color := .white
  spectators : List SocketId := []
  moveHistory : List MoveRecord := []
  chatHistory : List ChatMsg := []
  createdAt : Nat := 0
  lastActivity : Nat := 0
deriving DecidableEq, Repr

/-- Protocol messages emitted by the server handlers. -/
inductive Msg where
  | moveError (mv : String)
  | moveEcho (mv : String)
  | boardState (fen : String)
  | moveHistoryMsg (h : List MoveRecord)
  | chatHistoryMsg (h : List ChatMsg)
  | gameEnd (type : String) (winner : Option Color)
  | playersUpdate (whiteStatus blackStatus : String) (spectators : Nat)
  | chatBroadcast (m : ChatMsg)
  | chatError (text : String)
  | roleAssigned (role : String)
  | roleUnavailable (requested : String)
  | sessionIdMsg (s : String)
  | gameReset
  | errorMsg (text : String)
  | drawOfferReceived (fromRole : String)
  | drawOfferSent
  | drawOfferError (text : String)
  | drawOfferDeclined (byRole : String)
deriving DecidableEq, Repr

/-- An emission: unicast `socket.emit` / `io.to(socketId).emit`, or a
room broadcast `io.to(roomId).emit`. -/
inductive Out where
  | uni (sid : SocketId) (m : Msg)
  | room (roomId : String) (m : Msg)
deriving DecidableEq, Repr

/-- The seat that must move next, given the position's side to move. -/
def seatOf {Pos : Type} (r : Room Pos) : Color → Option SocketId
  | .white => r.white
  | .black => r.black

/-- `socket.on('move')` restricted to one room (the handler body after
the `gameRooms[roomId]` lookup).  Mirrors `app.js` lines 382–431. -/
def handleMove {Pos : Type} (eng : Engine Pos) (sid : SocketId) (roomId : String)
    (r : Room Pos) (mv : String) (now : Nat) : Room Pos × List Out :=
  if eng.turn r.chess = Color.white ∧ r.white ≠ some sid then (r, [])
  else if eng.turn r.chess = Color.black ∧ r.black ≠ some sid then (r, [])
  else
    match eng.move r.chess mv with
    | none => (r, [Out.uni sid (Msg.moveError mv)])
    | some (p2, san, col) =>
      let hist := r.moveHistory ++ [{ move := san, color := col, timestamp := now }]
      let r2 : Room Pos := { r with chess := p2, moveHistory := hist, currentPlayer := eng.turn p2 }
      let ends : List Out :=
        if eng.gameOver p2 then
          if eng.inCheckmate p2 then
            [Out.room roomId (Msg.gameEnd "checkmate"
              (some (if eng.turn p2 = Color.white then Color.black else Color.white)))]
          else if eng.inStalemate p2 then [Out.room roomId (Msg.gameEnd "stalemate" none)]
          else if eng.inThreefold p2 then [Out.room roomId (Msg.gameEnd "threefold" none)]
          else if eng.insufficientMaterial p2 then [Out.room roomId (Msg.gameEnd "insufficient" none)]
          else if eng.inDraw p2 then [Out.room roomId (Msg.gameEnd "draw" none)]
          else []
        else []
      (r2, [Out.room roomId (Msg.moveEcho mv), Out.room roomId (Msg.boardState (eng.fen p2)),
            Out.room roomId (Msg.moveHistoryMsg hist)] ++ ends)

/-- Is an emission a `gameEnd` event? -/
def isGameEnd : Out → Bool
  | Out.uni _ (Msg.gameEnd _ _) => true
  | Out.room _ (Msg.gameEnd _ _) => true
  | _ => false

/-- The `gameEnd` events among a list of emissions. -/
def gameEnds (outs : List Out) : List Out :=
  outs.filter isGameEnd

/-- Modelled from the spec: the terminal condition selected by the
spec's precedence order "checkmate > stalemate > repetition >
insufficient material > other draw", with the winner set for checkmate
(the side that is not to move in the mated position) and null
otherwise.  Used to compare the handler's emission with the spec. -/
def specTerminalEvent {Pos : Type} (eng : Engine Pos) (p2 : Pos) : Msg :=
  if eng.inCheckmate p2 then
    Msg.gameEnd "checkmate"
      (some (if eng.turn p2 = Color.white then Color.black else Color.white))
  else if eng.inStalemate p2 then Msg.gameEnd "stalemate" none
  else if eng.inThreefold p2 then Msg.gameEnd "threefold" none
  else if eng.insufficientMaterial p2 then Msg.gameEnd "insufficient" none
  else Msg.gameEnd "draw" none

/-- The character class of `validateInput`'s default `allowedChars`
regex `[a-zA-Z0-9\s\-_.,!?'"()]` (ASCII reading of `\s`). -/
def isAllowedChar (c : Char) : Bool :=
  c.isAlpha || c.isDigit || c.isWhitespace ||
    c = '-' || c = '_' || c = '.' || c = ',' || c = '!' || c = '?' ||
    c = '\'' || c = '"' || c = '(' || c = ')'

/-- JavaScript `String.prototype.trim` on the character list: drop
whitespace from both ends. -/
def trimChars (l : List Char) : List Char :=
  ((l.dropWhile Char.isWhitespace).reverse.dropWhile Char.isWhitespace).reverse

/-- JavaScript `String.prototype.trim`. -/
def jsTrim (s : String) : String :=
  String.mk (trimChars s.data)

/-- `validateInput(input, maxLength)` from `app.js` lines 66–81: trim,
reject empty or over-long, reject characters outside the allowed set,
otherwise return the trimmed string unchanged.  (For the ASCII inputs
considered here, JS `.length` agrees with the character count.) -/
def validateInput (input : String) (maxLength : Nat) : Option String :=
  let trimmed := jsTrim input
  if trimmed.length = 0 ∨ trimmed.length > maxLength then none
  else if trimmed.data.all isAllowedChar then some trimmed
  else none

/-- ASCII uppercase of one character (`String.prototype.toUpperCase`
restricted to the characters `validateRoomId` can accept). -/
def jsUpperChar (c : Char) : Char :=
  if 'a' ≤ c ∧ c ≤ 'z' then Char.ofNat (c.toNat - 32) else c

/-- `validateRoomId` from `app.js` lines 84–92: uppercase, then match
`^[A-Z0-9-]{4,12}$`. -/
def validRoomChar (c : Char) : Bool :=
  (decide ('A' ≤ c) && decide (c ≤ 'Z')) || c.isDigit || c = '-'

def validateRoomId (roomId : String) : Bool :=
  let u := roomId.data.map jsUpperChar
  decide (4 ≤ u.length) && decide (u.length ≤ 12) && u.all validRoomChar

/-- One entry of the `rateLimits` map: `{count, resetTime}`. -/
structure RateEntry where
  count : Nat
  resetTime : Nat
deriving DecidableEq, Repr

/-- One call of `checkRateLimit` (`app.js` lines 97–121) for a single
key, as a transition on that key's optional entry.  Returns whether the
request is allowed together with the updated entry.  `windowMs` is the
window length, `maxRequests` the cap. -/
def rateStep (maxRequests windowMs now : Nat) :
    Option RateEntry → Bool × Option RateEntry
  | none => (true, some { count := 1, resetTime := now + windowMs })
  | some limit =>
    if now > limit.resetTime then
      (true, some { count := 1, resetTime := now + windowMs })
    else if limit.count ≥ maxRequests then
      (false, some limit)
    else
      (true, some { limit with count := limit.count + 1 })

/-- The results of a sequence of `checkRateLimit` calls at the given
times, for one fixed key, starting from a given entry state. -/
def rateRun (maxRequests windowMs : Nat) (st : Option RateEntry) :
    List Nat → List Bool
  | [] => []
  | t :: ts =>
    let s := rateStep maxRequests windowMs t st
    s.1 :: rateRun maxRequests windowMs s.2 ts

/-- `socket.on('chatMessage')` restricted to one room, threading the
sender's rate-limit entry for the key `socketId + "-chat"`.  Mirrors
`app.js` lines 434–483: rate limit (5 per 30000 ms), players only,
`validateInput(message, 200)`, append, keep the last 50, broadcast.
`now` is `Date.now()` and `msgId` models `Date.now() + Math.random()`. -/
def handleChat {Pos : Type} (sid : SocketId) (roomId : String) (r : Room Pos)
    (rl : Option RateEntry) (text : String) (now msgId : Nat) :
    Room Pos × Option RateEntry × List Out :=
  let s := rateStep 5 30000 now rl
  if !s.1 then
    (r, s.2, [Out.uni sid (Msg.chatError "You are sending messages too quickly")])
  else if ¬ (r.white = some sid ∨ r.black = some sid) then
    (r, s.2, [Out.uni sid (Msg.chatError "Only players can send messages")])
  else
    match validateInput text 200 with
    | none => (r, s.2, [Out.uni sid (Msg.chatError "Invalid message content")])
    | some message =>
      let playerRole := if r.white = some sid then "white" else "black"
      let cm : ChatMsg :=
        { id := msgId, message := message, playerRole := playerRole,
          timestamp := now, socketId := sid }
      let pushed := r.chatHistory ++ [cm]
      let newHist := if pushed.length > 50 then pushed.drop (pushed.length - 50) else pushed
      ({ r with chatHistory := newHist }, s.2, [Out.room roomId (Msg.chatBroadcast cm)])

/-- `socket.on('resign')` restricted to one room (`app.js` lines
499–524): a seated player's resignation broadcasts `gameEnd` with the
opposite colour as winner; anyone else is ignored.  The room state is
returned unchanged in every case — the source records nothing. -/
def handleResign {Pos : Type} (sid : SocketId) (roomId : String) (r : Room Pos) :
    Room Pos × List Out :=
  if r.white = some sid then
    (r, [Out.room roomId (Msg.gameEnd "resignation" (some Color.black))])
  else if r.black = some sid then
    (r, [Out.room roomId (Msg.gameEnd "resignation" (some Color.white))])
  else
    (r, [])

/-- `socket.on('resetGame')` restricted to one room (`app.js` lines
485–497). -/
def handleResetGame {Pos : Type} (eng : Engine Pos) (sid : SocketId) (roomId : String)
    (r : Room Pos) : Room Pos × List Out :=
  if r.white = some sid ∨ r.black = some sid then
    let r2 : Room Pos := { r with chess := eng.start, moveHistory := [] }
    (r2, [Out.room roomId Msg.gameReset, Out.room roomId (Msg.boardState (eng.fen eng.start)),
          Out.room roomId (Msg.moveHistoryMsg [])])
  else
    (r, [])

/-- `socket.on('offerDraw')` restricted to one room (`app.js` lines
526–556).  Note the room state is never changed: no pending offer is
recorded anywhere. -/
def handleOfferDraw {Pos : Type} (sid : SocketId) (r : Room Pos) :
    Room Pos × List Out :=
  if r.white = some sid then
    match r.black with
    | none => (r, [Out.uni sid (Msg.drawOfferError "No opponent to offer draw to")])
    | some opp => (r, [Out.uni opp (Msg.drawOfferReceived "white"), Out.uni sid Msg.drawOfferSent])
  else if r.black = some sid then
    match r.white with
    | none => (r, [Out.uni sid (Msg.drawOfferError "No opponent to offer draw to")])
    | some opp => (r, [Out.uni opp (Msg.drawOfferReceived "black"), Out.uni sid Msg.drawOfferSent])
  else
    (r, [])

/-- `socket.on('respondToDraw')` restricted to one room (`app.js`
lines 558–591): any seated player sending `accepted = true` broadcasts
`gameEnd {type: draw_agreement, winner: null}` — nothing checks whether
an offer is pending, and the room state is unchanged. -/
def handleRespondToDraw {Pos : Type} (sid : SocketId) (roomId : String) (r : Room Pos)
    (accepted : Bool) : Room Pos × List Out :=
  if r.white = some sid ∨ r.black = some sid then
    let respondingPlayer := if r.white = some sid then "white" else "black"
    let opponentId := if r.white = some sid then r.black else r.white
    if accepted then
      (r, [Out.room roomId (Msg.gameEnd "draw_agreement" none)])
    else
      match opponentId with
      | some opp => (r, [Out.uni opp (Msg.drawOfferDeclined respondingPlayer)])
      | none => (r, [])
  else
    (r, [])

/-- The process-wide mutable state: `gameRooms`, each socket's
`socket.roomId` field, `playerSessions`, the pending 30-second
disconnect timers (a timer is the pair of the disconnected socket id
and the room id captured by its closure), and the `rateLimits` map. -/
structure ServerState (Pos : Type) where
  rooms : List (String × Room Pos) := []
  socketRoom : List (SocketId × String) := []
  sessions : List (String × String × Color) := []
  timers : List (SocketId × String) := []
  rateLimits : List (String × RateEntry) := []
deriving DecidableEq, Repr

/-- Generic JS-object assignment on an association list (replace if the
key is present, else add), used for `gameRooms`, `socket.roomId`,
`playerSessions` and `rateLimits`. -/
def setAssoc {β : Type} (l : List (String × β)) (k : String) (v : β) :
    List (String × β) :=
  if l.any (fun p => p.1 = k) then
    l.map (fun p => if p.1 = k then (k, v) else p)
  else
    l ++ [(k, v)]

def lookupAssoc {β : Type} (l : List (String × β)) (k : String) : Option β :=
  (l.find? (fun p => p.1 = k)).map (fun p => p.2)

/-- `gameRooms[roomId]` lookup. -/
def lookupRoom {Pos : Type} (rooms : List (String × Room Pos)) (roomId : String) :
    Option (Room Pos) :=
  lookupAssoc rooms roomId

/-- `gameRooms[roomId] = r` assignment. -/
def setRoom {Pos : Type} (rooms : List (String × Room Pos)) (roomId : String)
    (r : Room Pos) : List (String × Room Pos) :=
  setAssoc rooms roomId r

/-- `getOrCreateRoom` (`app.js` lines 134–149): create lazily, always
refresh `lastActivity`. -/
def getOrCreateRoom {Pos : Type} (eng : Engine Pos) (rooms : List (String × Room Pos))
    (roomId : String) (now : Nat) : Room Pos × List (String × Room Pos) :=
  let base : Room Pos :=
    match lookupRoom rooms roomId with
    | some r => r
    | none =>
      { chess := eng.start, white := none, black := none, currentPlayer := .white,
        spectators := [], moveHistory := [], chatHistory := [],
        createdAt := now, lastActivity := now }
  let r := { base with lastActivity := now }
  (r, setRoom rooms roomId r)

/-- The `'connected' : 'waiting'` seat status string of `playersUpdate`. -/
def seatStatus (seat : Option SocketId) : String :=
  match seat with
  | some _ => "connected"
  | none => "waiting"

/-- The `playersUpdate` broadcast for a room. -/
def playersUpdateMsg {Pos : Type} (r : Room Pos) : Msg :=
  Msg.playersUpdate (seatStatus r.white) (seatStatus r.black) r.spectators.length

/-- The unicast replay sent to a joining or reconnecting socket:
`boardState`, `moveHistory`, `chatHistory`. -/
def joinReplay {Pos : Type} (eng : Engine Pos) (sid : SocketId) (r : Room Pos) : List Out :=
  [Out.uni sid (Msg.boardState (eng.fen r.chess)),
   Out.uni sid (Msg.moveHistoryMsg r.moveHistory),
   Out.uni sid (Msg.chatHistoryMsg r.chatHistory)]

/-- The role-assignment branch of `socket.on('joinRoom')` (`app.js`
lines 260–314): given the resolved room, produce the mutated room, the
assigned role, whether a session token was issued, and the branch's
unicasts. -/
def joinBranch {Pos : Type} (room : Room Pos) (sid : SocketId)
    (preferredRole : String) (freshSession : String) :
    Room Pos × String × Bool × List Out :=
  if preferredRole = "white" then
    match room.white with
    | none => ({ room with white := some sid }, "white", true, [Out.uni sid (Msg.sessionIdMsg freshSession)])
    | some _ =>
      ({ room with spectators := room.spectators ++ [sid] }, "spectator", false,
       [Out.uni sid (Msg.roleUnavailable "white")])
  else if preferredRole = "black" then
    match room.black with
    | none => ({ room with black := some sid }, "black", true, [Out.uni sid (Msg.sessionIdMsg freshSession)])
    | some _ =>
      ({ room with spectators := room.spectators ++ [sid] }, "spectator", false,
       [Out.uni sid (Msg.roleUnavailable "black")])
  else if preferredRole = "viewer" ∨ preferredRole = "spectator" then
    ({ room with spectators := room.spectators ++ [sid] }, "spectator", false, [])
  else
    -- dead branch under the role guard of the handler, mirrored from the source
    match room.white with
    | none => ({ room with white := some sid }, "white", true, [Out.uni sid (Msg.sessionIdMsg freshSession)])
    | some _ =>
      match room.black with
      | none => ({ room with black := some sid }, "black", true, [Out.uni sid (Msg.sessionIdMsg freshSession)])
      | some _ => ({ room with spectators := room.spectators ++ [sid] }, "spectator", false, [])

/-- `socket.on('joinRoom')` (`app.js` lines 242–331).  `freshSession`
models the `generateSessionId()` result used if a seat is assigned. -/
def handleJoinRoom {Pos : Type} (eng : Engine Pos) (st : ServerState Pos)
    (sid : SocketId) (roomId : String) (preferredRole : String)
    (freshSession : String) (now : Nat) : ServerState Pos × List Out :=
  if !validateRoomId roomId then
    (st, [Out.uni sid (Msg.errorMsg "Invalid room ID format")])
  else if ¬ (preferredRole = "white" ∨ preferredRole = "black" ∨ preferredRole = "spectator") then
    (st, [Out.uni sid (Msg.errorMsg "Invalid role specified")])
  else
    let gc := getOrCreateRoom eng st.rooms roomId now
    let room := gc.1
    let socketRoom2 := setAssoc st.socketRoom sid roomId
    let branch := joinBranch room sid preferredRole freshSession
    let room2 := branch.1
    let assignedRole := branch.2.1
    let issued := branch.2.2.1
    let sessions2 :=
      if issued then
        setAssoc st.sessions freshSession
          (roomId, if assignedRole = "white" then Color.white else Color.black)
      else st.sessions
    let st2 : ServerState Pos :=
      { st with rooms := setRoom gc.2 roomId room2, socketRoom := socketRoom2,
                sessions := sessions2 }
    (st2,
     branch.2.2.2 ++ [Out.uni sid (Msg.roleAssigned assignedRole)] ++
       joinReplay eng sid room2 ++ [Out.room roomId (playersUpdateMsg room2)])

/-- `socket.on('reconnect')` (`app.js` lines 334–380).  `sid` is the id
of the fresh socket carrying the session token.  Note: the handler does
not cancel any pending disconnect timer and does not refresh
`lastActivity`. -/
def handleReconnect {Pos : Type} (eng : Engine Pos) (st : ServerState Pos)
    (sid : SocketId) (sessionTok : String) : ServerState Pos × List Out :=
  match lookupAssoc st.sessions sessionTok with
  | none => (st, [])
  | some (roomId, role) =>
    match lookupRoom st.rooms roomId with
    | none => (st, [])
    | some room =>
      let seat := match role with | .white => room.white | .black => room.black
      match seat with
      | none =>
        let room2 :=
          match role with
          | .white => { room with white := some sid }
          | .black => { room with black := some sid }
        let roleStr := match role with | .white => "white" | .black => "black"
        let st2 : ServerState Pos :=
          { st with rooms := setRoom st.rooms roomId room2,
                    socketRoom := setAssoc st.socketRoom sid roomId }
        (st2,
         [Out.uni sid (Msg.roleAssigned roleStr)] ++ joinReplay eng sid room2 ++
           [Out.room roomId (playersUpdateMsg room2)])
      | some _ =>
        let room2 := { room with spectators := room.spectators ++ [sid] }
        let roleStr := match role with | .white => "white" | .black => "black"
        let st2 : ServerState Pos :=
          { st with rooms := setRoom st.rooms roomId room2,
                    socketRoom := setAssoc st.socketRoom sid roomId }
        (st2,
         [Out.uni sid (Msg.roleAssigned "spectator")] ++ joinReplay eng sid room2 ++
           [Out.uni sid (Msg.roleUnavailable roleStr),
            Out.room roomId (playersUpdateMsg room2)])

/-- `handleDisconnection` (`app.js` lines 203–240) up to arming the
timer: remove the socket from the spectator list, clear any pending
timer for this socket, arm a fresh 30 s timer.  The timer body is
`timerFire` below. -/
def handleDisconnection {Pos : Type} (st : ServerState Pos) (sid : SocketId) :
    ServerState Pos :=
  match lookupAssoc st.socketRoom sid with
  | none => st
  | some roomId =>
    match lookupRoom st.rooms roomId with
    | none => st
    | some room =>
      let room2 := { room with spectators := room.spectators.filter (fun i => i ≠ sid) }
      { st with rooms := setRoom st.rooms roomId room2,
                timers := (st.timers.filter (fun p => p.1 ≠ sid)) ++ [(sid, roomId)] }

/-- The body of the 30-second grace timer armed by `handleDisconnection`
(`app.js` lines 219–236): vacate the seat still held by the
disconnected socket id, then broadcast occupancy.  No-op if the timer
was cleared.  (The source closure captures the room object; while the
room is still registered this is the same room the lookup finds.) -/
def timerFire {Pos : Type} (st : ServerState Pos) (sid : SocketId) :
    ServerState Pos × List Out :=
  match (st.timers.find? (fun p => p.1 = sid)).map (fun p => p.2) with
  | none => (st, [])
  | some roomId =>
    let st1 := { st with timers := st.timers.filter (fun p => p.1 ≠ sid) }
    match lookupRoom st.rooms roomId with
    | none => (st1, [])
    | some room =>
      let room2 :=
        if room.white = some sid then { room with white := none }
        else if room.black = some sid then { room with black := none }
        else room
      ({ st1 with rooms := setRoom st.rooms roomId room2 },
       [Out.room roomId (playersUpdateMsg room2)])

/-- The idle-room sweep (`app.js` lines 152–163): delete every room with
`now - lastActivity > 3600000`. -/
def sweepRooms {Pos : Type} (st : ServerState Pos) (now : Nat) : ServerState Pos :=
  { st with rooms := st.rooms.filter (fun p => ¬ (now - p.2.lastActivity > 3600000)) }

/-- Server-level `socket.on('move')`: `socket.roomId` and room lookup,
then the per-room handler. -/
def moveS {Pos : Type} (eng : Engine Pos) (st : ServerState Pos) (sid : SocketId)
    (mv : String) (now : Nat) : ServerState Pos × List Out :=
  match lookupAssoc st.socketRoom sid with
  | none => (st, [])
  | some roomId =>
    match lookupRoom st.rooms roomId with
    | none => (st, [])
    | some room =>
      let res := handleMove eng sid roomId room mv now
      ({ st with rooms := setRoom st.rooms roomId res.1 }, res.2)

/-- Server-level `socket.on('resign')`. -/
def resignS {Pos : Type} (st : ServerState Pos) (sid : SocketId) :
    ServerState Pos × List Out :=
  match lookupAssoc st.socketRoom sid with
  | none => (st, [])
  | some roomId =>
    match lookupRoom st.rooms roomId with
    | none => (st, [])
    | some room =>
      let res := handleResign sid roomId room
      ({ st with rooms := setRoom st.rooms roomId res.1 }, res.2)

/-- Server-level `socket.on('chatMessage')`, threading the global
`rateLimits` map at key `socketId + "-chat"`. -/
def chatS {Pos : Type} (st : ServerState Pos) (sid : SocketId) (text : String)
    (now msgId : Nat) : ServerState Pos × List Out :=
  match lookupAssoc st.socketRoom sid with
  | none => (st, [])
  | some roomId =>
    match lookupRoom st.rooms roomId with
    | none => (st, [])
    | some room =>
      let key := sid ++ "-chat"
      let res := handleChat sid roomId room (lookupAssoc st.rateLimits key) text now msgId
      let rl2 := match res.2.1 with
        | some e => setAssoc st.rateLimits key e
        | none => st.rateLimits
      ({ st with rooms := setRoom st.rooms roomId res.1, rateLimits := rl2 }, res.2.2)

/-- Slot occurrences of a connection inside one room: seats it holds
plus its occurrences in the spectator list. -/
def roomSlots {Pos : Type} (r : Room Pos) (sid : SocketId) : Nat :=
  (if r.white = some sid then 1 else 0) + (if r.black = some sid then 1 else 0) +
    r.spectators.countP (fun i => i == sid)

/-- Slot occurrences of a connection in an optional room (0 if the room
does not exist). -/
def slotsIn {Pos : Type} (o : Option (Room Pos)) (sid : SocketId) : Nat :=
  match o with
  | none => 0
  | some r => roomSlots r sid

/-- Messages sent in the trailing 30-second window ending at `t`. -/
def countIn (t : Nat) (l : List Nat) : Nat :=
  l.countP (fun a => decide (t ≤ a + 30000) && decide (a ≤ t))

/-- A concrete instantiation of the rules-engine interface used to
evaluate the handlers on closed inputs: positions are naturals, the
string "ok" is the only legal move, and every position from 2 on is
checkmate. -/
def toyEngine : Engine Nat where
  move p m := if m = "ok" then
      some (p + 1, "ok", if p % 2 = 0 then Color.white else Color.black)
    else none
  turn p := if p % 2 = 0 then Color.white else Color.black
  fen _ := "fen"
  gameOver p := decide (2 ≤ p)
  inCheckmate p := decide (2 ≤ p)
  inStalemate _ := false
  inThreefold _ := false
  insufficientMaterial _ := false
  inDraw _ := false
  start := 0

/-- Fresh server, then socket "s1" joins room "RM01" as white at time 0
(session token "sess1"). -/
def demoAfterJoinW : ServerState Nat :=
  (handleJoinRoom toyEngine {} "s1" "RM01" "white" "sess1" 0).1

/-- ... then socket "s2" joins as black at time 0 (token "sess2"). -/
def demoTwoSeated : ServerState Nat :=
  (handleJoinRoom toyEngine demoAfterJoinW "s2" "RM01" "black" "sess2" 0).1

/-- Grace-period scenario: "s1" (seated white) disconnects, arming the
30 s timer. -/
def demoDisc : ServerState Nat :=
  handleDisconnection demoTwoSeated "s1"

/-- ... the same player reconnects 10 s later on a fresh socket "s3"
with their token "sess1", well inside the grace period. -/
def demoReconnect : ServerState Nat × List Out :=
  handleReconnect toyEngine demoDisc "s3" "sess1"

/-- ... and at 30 s the grace timer fires. -/
def demoFire : ServerState Nat × List Out :=
  timerFire demoReconnect.1 "s1"

/-- Duplicate-join scenario: the already-seated white player "s1" sends
a second `joinRoom` for the same room asking for black. -/
def demoRejoin : ServerState Nat × List Out :=
  handleJoinRoom toyEngine demoAfterJoinW "s1" "RM01" "black" "sessX" 5

/-- Idle-sweep scenario: a legal move submitted at t = 3600000 ms
(one hour after the joins), followed by the sweep at t = 3600001 ms. -/
def demoLateMove : ServerState Nat × List Out :=
  moveS toyEngine demoTwoSeated "s1" "ok" 3600000

def demoSwept : ServerState Nat :=
  sweepRooms demoLateMove.1 3600001

/-- Resignation scenario: white resigns, then submits a move. -/
def demoResign : ServerState Nat × List Out :=
  resignS demoTwoSeated "s1"

def demoMoveAfterResign : ServerState Nat × List Out :=
  moveS toyEngine demoResign.1 "s1" "ok" 100

/-- Rate-limit scenario: seven chat attempts whose 7th arrives with six
messages already sent inside its trailing 30 s window. -/
def demoRateTimes : List Nat :=
  [0, 29996, 29997, 29998, 29999, 30001, 30002, 30002]

/-- A 201-character message (no leading/trailing whitespace, characters
all allowed), used against the chat sanitization claim. -/
def longMsg : String :=
  String.mk (List.replicate 201 'a')

/-- A small seated room used for closed chat evaluations. -/
def demoChatRoom : Room Nat :=
  { chess := 0, white := some "s1", black := some "s2" }

/-- A room one move away from checkmate under `toyEngine` (position 1,
black to move). -/
def demoMateRoom : Room Nat :=
  { chess := 1, black := some "s1" }

/-!  Helper lemmas about the association-list registry, slot counting
and the rate limiter. -/

theorem find?_map_self {β : Type} (k : String) (v : β) :
    ∀ l : List (String × β), (l.any fun p => p.1 = k) = true →
      (l.map (fun p => if p.1 = k then (k, v) else p)).find? (fun p => p.1 = k) = some (k, v)
  | [], h => by simp at h
  | p :: t, h => by
    by_cases hp : p.1 = k
    · simp [hp, List.find?]
    · have ht : (t.any fun p => p.1 = k) = true := by
        simpa [List.any_cons, hp] using h
      simp only [List.map_cons, if_neg hp]
      rw [List.find?_cons_of_neg _ (by simp [hp])]
      exact find?_map_self k v t ht

theorem find?_map_ne {β : Type} (k k2 : String) (v : β) (hne : k2 ≠ k) :
    ∀ l : List (String × β),
      (l.map (fun p => if p.1 = k then (k, v) else p)).find? (fun p => p.1 = k2) =
        l.find? (fun p => p.1 = k2)
  | [] => rfl
  | p :: t => by
    by_cases hp : p.1 = k
    · have h2 : ¬ (p.1 = k2) := by rw [hp]; exact fun h => hne h.symm
      simp only [List.map_cons, if_pos hp]
      rw [List.find?_cons_of_neg _ (by simp [hne.symm]), List.find?_cons_of_neg _ (by simp [h2])]
      exact find?_map_ne k k2 v hne t
    · simp only [List.map_cons, if_neg hp]
      by_cases hp2 : p.1 = k2
      · rw [List.find?_cons_of_pos _ (by simp [hp2]), List.find?_cons_of_pos _ (by simp [hp2])]
      · rw [List.find?_cons_of_neg _ (by simp [hp2]), List.find?_cons_of_neg _ (by simp [hp2])]
        exact find?_map_ne k k2 v hne t

theorem lookupAssoc_set_self {β : Type} (l : List (String × β)) (k : String) (v : β) :
    lookupAssoc (setAssoc l k v) k = some v := by
  unfold setAssoc lookupAssoc
  split
  · rename_i hany
    rw [find?_map_self k v l hany]
    rfl
  · rename_i hany
    rw [List.find?_append]
    have hnone : l.find? (fun p => decide (p.1 = k)) = none := by
      rw [List.find?_eq_none]
      intro x hx hxk
      exact hany (by rw [List.any_eq_true]; exact ⟨x, hx, hxk⟩)
    simp [hnone]

theorem lookupAssoc_set_ne {β : Type} (l : List (String × β)) (k k2 : String) (v : β)
    (hne : k2 ≠ k) : lookupAssoc (setAssoc l k v) k2 = lookupAssoc l k2 := by
  unfold setAssoc lookupAssoc
  split
  · rw [find?_map_ne k k2 v hne l]
  · rw [List.find?_append]
    have h1 : List.find? (fun p => decide (p.1 = k2)) [(k, v)] = none := by
      simp [hne.symm]
    simp [h1]

theorem roomSlots_spectPush {Pos : Type} (r0 : Room Pos) (sid x : SocketId) :
    roomSlots { r0 with spectators := r0.spectators ++ [sid] } x =
      roomSlots r0 x + (if x = sid then 1 else 0) := by
  unfold roomSlots
  by_cases hx : x = sid
  · subst hx
    simp [List.countP_append, List.countP_cons]
    omega
  · have hb : (sid == x) = false := by
      simp only [beq_eq_false_iff_ne, ne_eq]
      exact fun h => hx h.symm
    simp [List.countP_append, List.countP_cons, hb, hx]

theorem roomSlots_seatWhite {Pos : Type} (r0 : Room Pos) (sid x : SocketId)
    (h0 : r0.white = none) :
    roomSlots { r0 with white := some sid } x =
      roomSlots r0 x + (if x = sid then 1 else 0) := by
  unfold roomSlots
  rw [h0]
  by_cases hx : x = sid
  · subst hx
    simp
    omega
  · have h1 : ¬ (some sid = some x) := by
      simp only [Option.some_inj]
      exact fun h => hx h.symm
    simp [hx, h1]

theorem roomSlots_seatBlack {Pos : Type} (r0 : Room Pos) (sid x : SocketId)
    (h0 : r0.black = none) :
    roomSlots { r0 with black := some sid } x =
      roomSlots r0 x + (if x = sid then 1 else 0) := by
  unfold roomSlots
  rw [h0]
  by_cases hx : x = sid
  · subst hx
    simp
    omega
  · have h1 : ¬ (some sid = some x) := by
      simp only [Option.some_inj]
      exact fun h => hx h.symm
    simp [hx, h1]

/-- Every branch of the role-assignment step adds the joining connection
to exactly one slot of the target room and leaves everyone else's slots
unchanged. -/
theorem joinBranch_slots {Pos : Type} (room : Room Pos) (sid : SocketId)
    (role fresh : String) (x : SocketId) :
    roomSlots (joinBranch room sid role fresh).1 x =
      roomSlots room x + (if x = sid then 1 else 0) := by
  unfold joinBranch
  split
  · split
    · rename_i heq
      exact roomSlots_seatWhite room sid x heq
    · exact roomSlots_spectPush room sid x
  · split
    · split
      · rename_i heq
        exact roomSlots_seatBlack room sid x heq
      · exact roomSlots_spectPush room sid x
    · split
      · exact roomSlots_spectPush room sid x
      · split
        · rename_i heq
          exact roomSlots_seatWhite room sid x heq
        · split
          · rename_i heq
            exact roomSlots_seatBlack room sid x heq
          · exact roomSlots_spectPush room sid x

/-- A rejected `checkRateLimit` call leaves the entry unchanged. -/
theorem rateStep_reject_state (m w now : Nat) (rl : Option RateEntry)
    (h : (rateStep m w now rl).1 = false) : (rateStep m w now rl).2 = rl := by
  rcases rl with _ | limit
  · simp [rateStep] at h
  · simp only [rateStep] at h ⊢
    split at h
    · simp at h
    · split at h
      · rename_i hgt hge
        simp [hgt, hge]
      · simp at h

/-- Main invariant argument for the rate limiter: with nondecreasing
call times, a rejected call always has at least five earlier calls
inside its trailing 30-second window.  `acc` carries the times of the
calls already processed; the entry invariant ties the stored count to
calls inside the stored window. -/
theorem rate_aux :
    ∀ (ts : List Nat) (st : Option RateEntry) (acc : List Nat),
      (∀ c rt, st = some ⟨c, rt⟩ → 1 ≤ c ∧
        c ≤ acc.countP (fun a => decide (rt ≤ a + 30000))) →
      (∀ a ∈ acc, ∀ t ∈ ts, a ≤ t) →
      ts.Pairwise (· ≤ ·) →
      ∀ i t, ts.get? i = some t → (rateRun 5 30000 st ts).get? i = some false →
        5 ≤ (acc ++ ts.take i).countP (fun a => decide (t ≤ a + 30000) && decide (a ≤ t))
  | [], _, _, _, _, _, i, t, ht, _ => by simp at ht
  | t0 :: rest, st, acc, hInv, h1, hPw, i, t, ht, hrej => by
    match i with
    | 0 =>
      have ht0 : t0 = t := by simpa using ht
      subst ht0
      simp only [List.take_zero, List.append_nil]
      rcases hst : st with _ | limit
      · rw [hst] at hrej
        simp [rateRun, rateStep] at hrej
      · obtain ⟨hc1, hcle⟩ := hInv limit.count limit.resetTime (by rw [hst])
        rw [hst] at hrej
        simp only [rateRun, rateStep, List.get?] at hrej
        by_cases hgt : t0 > limit.resetTime
        · simp [hgt] at hrej
        · by_cases hge : limit.count ≥ 5
          · have hle : t0 ≤ limit.resetTime := Nat.le_of_not_lt hgt
            have hmono : acc.countP (fun a => decide (limit.resetTime ≤ a + 30000)) ≤
                acc.countP (fun a => decide (t0 ≤ a + 30000) && decide (a ≤ t0)) := by
              apply List.countP_mono_left
              intro a ha hpa
              simp only [decide_eq_true_eq] at hpa
              simp only [Bool.and_eq_true, decide_eq_true_eq]
              exact ⟨Nat.le_trans hle hpa, h1 a ha t0 (by simp)⟩
            omega
          · simp [hgt, hge] at hrej
    | Nat.succ j =>
      have htj : rest.get? j = some t := by simpa using ht
      have hrj : (rateRun 5 30000 (rateStep 5 30000 t0 st).2 rest).get? j = some false := by
        simpa [rateRun] using hrej
      have hmem0 : ∀ a ∈ acc, a ≤ t0 := fun a ha => h1 a ha t0 (by simp)
      have hPw' : rest.Pairwise (· ≤ ·) := (List.pairwise_cons.mp hPw).2
      have hhead : ∀ t' ∈ rest, t0 ≤ t' := (List.pairwise_cons.mp hPw).1
      have h1' : ∀ a ∈ acc ++ [t0], ∀ t' ∈ rest, a ≤ t' := by
        intro a ha t' ht'
        rcases List.mem_append.mp ha with ha | ha
        · exact Nat.le_trans (h1 a ha t0 (by simp)) (hhead t' ht')
        · simp at ha
          subst ha
          exact hhead t' ht'
      have hInv' : ∀ c rt, (rateStep 5 30000 t0 st).2 = some ⟨c, rt⟩ → 1 ≤ c ∧
          c ≤ (acc ++ [t0]).countP (fun a => decide (rt ≤ a + 30000)) := by
        intro c rt heq
        rcases hst : st with _ | limit
        · rw [hst] at heq
          simp only [rateStep] at heq
          simp only [Option.some_inj, RateEntry.mk.injEq] at heq
          obtain ⟨hc, hrt⟩ := heq
          subst hc; subst hrt
          refine ⟨le_rfl, ?_⟩
          rw [List.countP_append]
          simp
        · rw [hst] at heq
          simp only [rateStep] at heq
          obtain ⟨hl1, hlle⟩ := hInv limit.count limit.resetTime (by rw [hst])
          split at heq
          · simp only [Option.some_inj, RateEntry.mk.injEq] at heq
            obtain ⟨hc, hrt⟩ := heq
            subst hc; subst hrt
            refine ⟨le_rfl, ?_⟩
            rw [List.countP_append]
            simp
          · split at heq
            · simp only [Option.some_inj] at heq
              have hc : limit.count = c := congrArg RateEntry.count heq
              have hrt : limit.resetTime = rt := congrArg RateEntry.resetTime heq
              subst hc; subst hrt
              refine ⟨hl1, ?_⟩
              rw [List.countP_append]
              omega
            · simp only [Option.some_inj, RateEntry.mk.injEq] at heq
              obtain ⟨hc, hrt⟩ := heq
              subst hc; subst hrt
              refine ⟨by omega, ?_⟩
              have hpos : 0 < acc.countP (fun a => decide (limit.resetTime ≤ a + 30000)) := by
                omega
              obtain ⟨a, ha, hpa⟩ := List.countP_pos_iff.mp hpos
              simp only [decide_eq_true_eq] at hpa
              have hrt0 : limit.resetTime ≤ t0 + 30000 :=
                Nat.le_trans hpa (by have := hmem0 a ha; omega)
              rw [List.countP_append]
              have hone : List.countP (fun a => decide (limit.resetTime ≤ a + 30000)) [t0] = 1 := by
                simp [hrt0]
              omega
      have hrec := rate_aux rest (rateStep 5 30000 t0 st).2 (acc ++ [t0]) hInv' h1' hPw' j t htj hrj
      calc (5 : Nat) ≤ ((acc ++ [t0]) ++ rest.take j).countP
            (fun a => decide (t ≤ a + 30000) && decide (a ≤ t)) := hrec
        _ = (acc ++ (t0 :: rest).take (j + 1)).countP
            (fun a => decide (t ≤ a + 30000) && decide (a ≤ t)) := by
          rw [List.append_assoc]
          rfl

/-!  Claim theorems. -/

set_option maxRecDepth 4000

/-- Claim C1: a move submission is accepted (appended to `moveHistory`
and applied to the position) exactly when the submitting connection
occupies the seat matching the side to move and the rules engine
accepts the move; a wrong-seat or wrong-turn submission changes nothing
and emits nothing, and a rules-engine rejection changes nothing and
emits `moveError` to the submitter only. -/
theorem move_seat_turn_engine_characterization {Pos : Type} (eng : Engine Pos)
    (sid : SocketId) (roomId : String) (r : Room Pos) (mv : String) (now : Nat) :
    (seatOf r (eng.turn r.chess) ≠ some sid →
      handleMove eng sid roomId r mv now = (r, [])) ∧
    (seatOf r (eng.turn r.chess) = some sid →
      (eng.move r.chess mv = none →
        handleMove eng sid roomId r mv now = (r, [Out.uni sid (Msg.moveError mv)])) ∧
      (∀ p2 san col, eng.move r.chess mv = some (p2, san, col) →
        (handleMove eng sid roomId r mv now).1.moveHistory =
          r.moveHistory ++ [{ move := san, color := col, timestamp := now }] ∧
        (handleMove eng sid roomId r mv now).1.chess = p2 ∧
        (handleMove eng sid roomId r mv now).1.chatHistory = r.chatHistory)) := by
  constructor
  · intro hmis
    unfold handleMove
    rcases hturn : eng.turn r.chess with _ | _
    · rw [hturn] at hmis
      simp only [seatOf] at hmis
      simp [hmis]
    · rw [hturn] at hmis
      simp only [seatOf] at hmis
      simp [hmis]
  · intro hmat
    constructor
    · intro hnone
      unfold handleMove
      rcases hturn : eng.turn r.chess with _ | _ <;>
        rw [hturn] at hmat <;> simp only [seatOf] at hmat <;> simp [hmat, hnone]
    · intro p2 san col hsome
      unfold handleMove
      rcases hturn : eng.turn r.chess with _ | _ <;>
        rw [hturn] at hmat <;> simp only [seatOf] at hmat <;> simp [hmat, hsome]

/-- Witness for C1: on the toy engine, the seated white player submits
an illegal move and receives `moveError` with no state change. -/
theorem move_seat_turn_engine_characterization_witness :
    handleMove toyEngine "s1" "RM01" demoChatRoom "bad" 7 =
      (demoChatRoom, [Out.uni "s1" (Msg.moveError "bad")]) :=
  ((move_seat_turn_engine_characterization toyEngine "s1" "RM01" demoChatRoom "bad" 7).2
    (by decide)).1 (by decide)

/-- Claim C2: a move emits at most one `gameEnd` event, and a legal
move into a terminal position (whose terminal flags cover the
`game_over` verdict, as in the chess.js engine) emits exactly one
`gameEnd`, carrying the first matching condition in the precedence
order checkmate > stalemate > repetition > insufficient material >
other draw, with the winner set for checkmate and null otherwise. -/
theorem move_gameEnd_unique_precedence {Pos : Type} (eng : Engine Pos)
    (sid : SocketId) (roomId : String) (r : Room Pos) (mv : String) (now : Nat) :
    (gameEnds (handleMove eng sid roomId r mv now).2).length ≤ 1 ∧
    (∀ p2 san col, seatOf r (eng.turn r.chess) = some sid →
      eng.move r.chess mv = some (p2, san, col) →
      eng.gameOver p2 = true →
      (eng.inCheckmate p2 = true ∨ eng.inStalemate p2 = true ∨ eng.inThreefold p2 = true ∨
        eng.insufficientMaterial p2 = true ∨ eng.inDraw p2 = true) →
      gameEnds (handleMove eng sid roomId r mv now).2 =
        [Out.room roomId (specTerminalEvent eng p2)]) := by
  constructor
  · unfold handleMove
    split
    · simp [gameEnds]
    · split
      · simp [gameEnds]
      · rcases hmv : eng.move r.chess mv with _ | ⟨p2, san, col⟩
        · simp [gameEnds, isGameEnd]
        · simp only [gameEnds, List.filter_append]
          by_cases hgo : eng.gameOver p2 <;>
            by_cases h1 : eng.inCheckmate p2 <;>
            by_cases h2 : eng.inStalemate p2 <;>
            by_cases h3 : eng.inThreefold p2 <;>
            by_cases h4 : eng.insufficientMaterial p2 <;>
            by_cases h5 : eng.inDraw p2 <;>
            simp [hgo, h1, h2, h3, h4, h5, isGameEnd]
  · intro p2 san col hseat hmv hgo hcov
    have hturn : seatOf r (eng.turn r.chess) = some sid := hseat
    unfold handleMove
    rcases ht : eng.turn r.chess with _ | _ <;>
      rw [ht] at hturn <;> simp only [seatOf] at hturn <;>
      · simp only [hturn, hmv]
        simp only [gameEnds, List.filter_append, specTerminalEvent]
        rcases hcov with h | h | h | h | h <;>
          by_cases h1 : eng.inCheckmate p2 <;>
          by_cases h2 : eng.inStalemate p2 <;>
          by_cases h3 : eng.inThreefold p2 <;>
          by_cases h4 : eng.insufficientMaterial p2 <;>
          by_cases h5 : eng.inDraw p2 <;>
          simp_all [hgo, isGameEnd]

/-- Witness for C2: on the toy engine, black's move into the checkmate
position emits exactly the checkmate `gameEnd`. -/
theorem move_gameEnd_unique_precedence_witness :
    gameEnds (handleMove toyEngine "s1" "RM01" demoMateRoom "ok" 9).2 =
      [Out.room "RM01" (specTerminalEvent toyEngine 2)] :=
  (move_gameEnd_unique_precedence toyEngine "s1" "RM01" demoMateRoom "ok" 9).2
    2 "ok" Color.black (by decide) (by decide) (by decide) (Or.inl (by decide))

/-- Claim C3 (divergence witness): after the seated white player
disconnects and reconnects with their session token inside the
30-second grace period, the reconnecting socket is assigned spectator
(the seat is still held by the stale socket id, so the handler's
`!room.players[role]` test fails), and when the grace timer fires the
seat is vacated and a `playersUpdate` carrying `waiting` for that seat
is broadcast — contradicting the claim that the seat ends up with the
same player and that no `waiting` update is ever broadcast. -/
theorem grace_reconnect_divergence :
    (lookupRoom demoReconnect.1.rooms "RM01").map (fun r => r.white) = some (some "s1") ∧
    Out.uni "s3" (Msg.roleAssigned "spectator") ∈ demoReconnect.2 ∧
    Out.uni "s3" (Msg.roleUnavailable "white") ∈ demoReconnect.2 ∧
    (lookupRoom demoFire.1.rooms "RM01").map (fun r => r.white) = some none ∧
    demoFire.2 = [Out.room "RM01" (Msg.playersUpdate "waiting" "connected" 1)] := by
  decide

/-- Claim C4 (counterexample): a seated connection that issues a second
`joinRoom` for the same room ends up holding both seats, violating the
registry-wide at-most-one-slot invariant. -/
theorem double_slot_after_second_join :
    (lookupRoom demoRejoin.1.rooms "RM01").map (fun r => (r.white, r.black)) =
      some (some "s1", some "s1") ∧
    (lookupRoom demoRejoin.1.rooms "RM01").map (fun r => roomSlots r "s1") = some 2 := by
  decide

/-- Claim C4 (amended): one `joinRoom` call touches no other room,
changes no other connection's slots, and grants the joining connection
at most one new slot in the target room; the original claim fails only
because a connection's existing slots are never released, so repeated
joins accumulate slots. -/
theorem joinRoom_adds_at_most_one_slot {Pos : Type} (eng : Engine Pos)
    (st : ServerState Pos) (sid : SocketId) (roomId : String) (role fresh : String)
    (now : Nat) :
    (∀ id2, id2 ≠ roomId →
      lookupRoom (handleJoinRoom eng st sid roomId role fresh now).1.rooms id2 =
        lookupRoom st.rooms id2) ∧
    (∀ x, x ≠ sid →
      slotsIn (lookupRoom (handleJoinRoom eng st sid roomId role fresh now).1.rooms roomId) x =
        slotsIn (lookupRoom st.rooms roomId) x) ∧
    (slotsIn (lookupRoom (handleJoinRoom eng st sid roomId role fresh now).1.rooms roomId) sid ≤
      slotsIn (lookupRoom st.rooms roomId) sid + 1) := by
  by_cases hv : (!validateRoomId roomId) = true
  · refine ⟨fun id2 _ => ?_, fun x _ => ?_, ?_⟩ <;>
      simp [handleJoinRoom, hv]
  · by_cases hr : role = "white" ∨ role = "black" ∨ role = "spectator"
    · have hform : (handleJoinRoom eng st sid roomId role fresh now).1.rooms =
        setRoom (getOrCreateRoom eng st.rooms roomId now).2 roomId
          (joinBranch (getOrCreateRoom eng st.rooms roomId now).1 sid role fresh).1 := by
        simp [handleJoinRoom, hv, hr]
      have hgc2 : (getOrCreateRoom eng st.rooms roomId now).2 =
          setRoom st.rooms roomId (getOrCreateRoom eng st.rooms roomId now).1 := by
        unfold getOrCreateRoom
        rfl
      have hbase : roomSlots (getOrCreateRoom eng st.rooms roomId now).1 =
          fun x => slotsIn (lookupRoom st.rooms roomId) x := by
        funext x
        rcases hlook : lookupRoom st.rooms roomId with _ | r0 <;>
          simp [getOrCreateRoom, hlook, slotsIn, roomSlots]
      refine ⟨fun id2 hne => ?_, fun x hx => ?_, ?_⟩
      · rw [hform, hgc2]
        unfold lookupRoom setRoom
        rw [lookupAssoc_set_ne _ _ _ _ hne, lookupAssoc_set_ne _ _ _ _ hne]
      · rw [hform]
        unfold lookupRoom setRoom
        rw [lookupAssoc_set_self]
        show roomSlots (joinBranch (getOrCreateRoom eng st.rooms roomId now).1 sid role fresh).1 x = _
        rw [joinBranch_slots]
        rw [congrFun hbase x]
        simp [hx]
        rfl
      · rw [hform]
        unfold lookupRoom setRoom
        rw [lookupAssoc_set_self]
        show roomSlots (joinBranch (getOrCreateRoom eng st.rooms roomId now).1 sid role fresh).1 sid ≤ _
        rw [joinBranch_slots]
        rw [congrFun hbase sid]
        simp
        exact le_rfl
    · refine ⟨fun id2 _ => ?_, fun x _ => ?_, ?_⟩ <;>
        simp [handleJoinRoom, hv, hr]

/-- Witness for the amended C4: applying the theorem to the
duplicate-join scenario. -/
theorem joinRoom_adds_at_most_one_slot_witness :
    lookupRoom (handleJoinRoom toyEngine demoAfterJoinW "s1" "RM01" "black" "sessX" 5).1.rooms
        "ZZZZ" = lookupRoom demoAfterJoinW.rooms "ZZZZ" ∧
    slotsIn (lookupRoom (handleJoinRoom toyEngine demoAfterJoinW "s1" "RM01" "black" "sessX"
        5).1.rooms "RM01") "s2" =
      slotsIn (lookupRoom demoAfterJoinW.rooms "RM01") "s2" ∧
    slotsIn (lookupRoom (handleJoinRoom toyEngine demoAfterJoinW "s1" "RM01" "black" "sessX"
        5).1.rooms "RM01") "s1" ≤
      slotsIn (lookupRoom demoAfterJoinW.rooms "RM01") "s1" + 1 :=
  ⟨(joinRoom_adds_at_most_one_slot toyEngine demoAfterJoinW "s1" "RM01" "black" "sessX" 5).1
      "ZZZZ" (by decide),
   (joinRoom_adds_at_most_one_slot toyEngine demoAfterJoinW "s1" "RM01" "black" "sessX" 5).2.1
      "s2" (by decide),
   (joinRoom_adds_at_most_one_slot toyEngine demoAfterJoinW "s1" "RM01" "black" "sessX" 5).2.2⟩

/-- Claim C5 (divergence witness): `lastActivity` is refreshed only by
`getOrCreateRoom` (i.e. by `joinRoom`), so a room whose players joined
at time 0 and submitted an accepted move at t = 3600000 ms still has
`lastActivity = 0` and is deleted by the sweep at t = 3600001 ms — one
millisecond after a room-affecting action. -/
theorem idle_sweep_ignores_move_activity :
    (lookupRoom demoLateMove.1.rooms "RM01").map
      (fun r => (r.moveHistory.length, r.lastActivity)) = some (1, 0) ∧
    3600001 - 3600000 ≤ 3600000 ∧
    lookupRoom demoSwept.rooms "RM01" = none := by
  decide

/-- Claim C6: an accepted chat message keeps `chatHistory` at length at
most 50, evicting exactly the oldest entry when the history is full;
rejected messages leave it unchanged. -/
theorem chat_history_fifo_bound {Pos : Type} (sid : SocketId) (roomId : String)
    (r : Room Pos) (rl : Option RateEntry) (text : String) (now msgId : Nat)
    (hlen : r.chatHistory.length ≤ 50) :
    ((handleChat sid roomId r rl text now msgId).1.chatHistory.length ≤ 50) ∧
    ((handleChat sid roomId r rl text now msgId).1.chatHistory = r.chatHistory ∨
      ∃ cm : ChatMsg,
        (handleChat sid roomId r rl text now msgId).1.chatHistory =
          (if r.chatHistory.length = 50 then r.chatHistory.drop 1 else r.chatHistory) ++ [cm]) := by
  by_cases hrate : (rateStep 5 30000 now rl).1 = true
  · by_cases hseat : r.white = some sid ∨ r.black = some sid
    · rcases hv : validateInput text 200 with _ | v
      · refine ⟨?_, Or.inl ?_⟩ <;> simp [handleChat, hrate, hseat, hv, hlen]
      · set cm : ChatMsg :=
          { id := msgId, message := v,
            playerRole := if r.white = some sid then "white" else "black",
            timestamp := now, socketId := sid } with hcm
        by_cases hfull : r.chatHistory.length = 50
        · have h51 : (r.chatHistory.length + 1 : Nat) > 50 := by omega
          refine ⟨?_, Or.inr ⟨cm, ?_⟩⟩
          · simp [handleChat, hrate, hseat, hv, hfull, h51]
          · simp only [handleChat, hrate, hseat, hv]
            simp [h51, hfull, List.drop_append_of_le_length, hlen, hcm]
        · have hlt : r.chatHistory.length < 50 := lt_of_le_of_ne hlen hfull
          have hng : ¬ ((r.chatHistory.length + 1 : Nat) > 50) := by omega
          refine ⟨?_, Or.inr ⟨cm, ?_⟩⟩
          · simp [handleChat, hrate, hseat, hv, hng]
            omega
          · simp [handleChat, hrate, hseat, hv, hng, hfull, hcm]
    · refine ⟨?_, Or.inl ?_⟩ <;> simp [handleChat, hrate, hseat, hlen]
  · refine ⟨?_, Or.inl ?_⟩ <;> simp [handleChat, hrate, hlen]

/-- Witness for C6 at a concrete accepted message. -/
theorem chat_history_fifo_bound_witness :
    ((handleChat "s1" "RM01" demoChatRoom none "hi" 0 0).1.chatHistory.length ≤ 50) ∧
    ((handleChat "s1" "RM01" demoChatRoom none "hi" 0 0).1.chatHistory =
        demoChatRoom.chatHistory ∨
      ∃ cm : ChatMsg,
        (handleChat "s1" "RM01" demoChatRoom none "hi" 0 0).1.chatHistory =
          (if demoChatRoom.chatHistory.length = 50 then demoChatRoom.chatHistory.drop 1
            else demoChatRoom.chatHistory) ++ [cm]) :=
  chat_history_fifo_bound "s1" "RM01" demoChatRoom none "hi" 0 0 (by decide)

/-- Claim C7 (counterexample): resignation records nothing, so a legal
move submitted right after white resigns — with no reset in between —
is still accepted and appended to `moveHistory`. -/
theorem move_accepted_after_resignation :
    demoResign.2 = [Out.room "RM01" (Msg.gameEnd "resignation" (some Color.black))] ∧
    (lookupRoom demoMoveAfterResign.1.rooms "RM01").map (fun r => r.moveHistory.length) =
      some 1 := by
  decide

/-- Claim C7 (amended): a seated player's resignation immediately emits
`gameEnd {resignation, opposite colour}` to the room and a non-seated
resign request emits nothing, but the room state is left completely
unchanged, so subsequent move submissions are accepted exactly as
before the resignation. -/
theorem resign_emits_and_changes_nothing {Pos : Type} (sid : SocketId) (roomId : String)
    (r : Room Pos) :
    (handleResign sid roomId r).1 = r ∧
    (r.white = some sid →
      handleResign sid roomId r =
        (r, [Out.room roomId (Msg.gameEnd "resignation" (some Color.black))])) ∧
    (r.white ≠ some sid → r.black = some sid →
      handleResign sid roomId r =
        (r, [Out.room roomId (Msg.gameEnd "resignation" (some Color.white))])) ∧
    (r.white ≠ some sid → r.black ≠ some sid → handleResign sid roomId r = (r, [])) := by
  refine ⟨?_, ?_, ?_, ?_⟩
  · unfold handleResign
    split
    · rfl
    · split <;> rfl
  · intro h
    unfold handleResign
    simp [h]
  · intro h1 h2
    unfold handleResign
    simp [h1, h2]
  · intro h1 h2
    unfold handleResign
    simp [h1, h2]

/-- Witness for the amended C7: white's resignation in a concrete room. -/
theorem resign_emits_and_changes_nothing_witness :
    handleResign "s1" "RM01" demoChatRoom =
      (demoChatRoom, [Out.room "RM01" (Msg.gameEnd "resignation" (some Color.black))]) :=
  (resign_emits_and_changes_nothing "s1" "RM01" demoChatRoom).2.1 (by decide)

/-- Claim C8 (counterexample): the limiter is a fixed window, not a
sliding one — in the concrete call sequence `demoRateTimes` the eighth
message is accepted although six messages already lie inside its
trailing 30-second window, where the claim demands rejection. -/
theorem rate_limiter_not_sliding_window :
    (rateRun 5 30000 none demoRateTimes).get? 7 = some true ∧
    demoRateTimes.get? 7 = some 30002 ∧
    5 < countIn 30002 (demoRateTimes.take 7) := by
  decide

/-- Claim C8 (amended): the limiter is a fixed 30-second window
anchored at the window's first message; a message is rejected only if
at least five earlier messages lie inside its trailing 30-second window
(so under-bound messages are never rate-limited), and a rate-limited
chat attempt changes nothing and notifies only the sender — but
over-bound messages straddling a window reset can still be accepted. -/
theorem rate_limiter_fixed_window_bound :
    (∀ (ts : List Nat), ts.Pairwise (· ≤ ·) →
      ∀ i t, ts.get? i = some t → (rateRun 5 30000 none ts).get? i = some false →
        5 ≤ countIn t (ts.take i)) ∧
    (∀ (Pos : Type) (r : Room Pos) (sid : SocketId) (roomId : String)
        (rl : Option RateEntry) (text : String) (now msgId : Nat),
      (rateStep 5 30000 now rl).1 = false →
      handleChat sid roomId r rl text now msgId =
        (r, rl, [Out.uni sid (Msg.chatError "You are sending messages too quickly")])) := by
  constructor
  · intro ts hPw i t ht hrej
    have h := rate_aux ts none [] (by intro c rt h; simp at h) (by intro a ha; simp at ha)
      hPw i t ht hrej
    simpa [countIn] using h
  · intro Pos r sid roomId rl text now msgId hrej
    have h2 := rateStep_reject_state 5 30000 now rl hrej
    simp [handleChat, hrej, h2]

/-- Witness for the amended C8: a rejection in a concrete nondecreasing
sequence indeed has five messages in its trailing window, and a
rate-limited chat attempt on a concrete room only notifies the sender. -/
theorem rate_limiter_fixed_window_bound_witness :
    5 ≤ countIn 1 (([0, 0, 0, 0, 0, 1] : List Nat).take 5) ∧
    handleChat "s1" "RM01" demoChatRoom (some { count := 5, resetTime := 30000 }) "x" 10 0 =
      (demoChatRoom, some { count := 5, resetTime := 30000 },
       [Out.uni "s1" (Msg.chatError "You are sending messages too quickly")]) :=
  ⟨rate_limiter_fixed_window_bound.1 [0, 0, 0, 0, 0, 1] (by decide) 5 1 (by decide) (by decide),
   rate_limiter_fixed_window_bound.2 Nat demoChatRoom "s1" "RM01"
     (some { count := 5, resetTime := 30000 }) "x" 10 0 (by decide)⟩

/-- Claim C9 (counterexample): a 201-character message from a seated
player, whose trimmed/capped/stripped form is a nonempty 200-character
string that the claim says is stored and broadcast, is instead rejected
outright with `Invalid message content` and no state change — the code
validates length and characters, it never caps or strips. -/
theorem chat_overlong_rejected_not_capped :
    String.mk ((jsTrim longMsg).data.take 200) ≠ "" ∧
    ((jsTrim longMsg).data.take 200).length = 200 ∧
    ((jsTrim longMsg).data.take 200).all isAllowedChar = true ∧
    validateInput longMsg 200 = none ∧
    handleChat "s1" "RM01" demoChatRoom none longMsg 0 0 =
      (demoChatRoom, some { count := 1, resetTime := 30000 },
       [Out.uni "s1" (Msg.chatError "Invalid message content")]) := by
  decide

/-- Claim C9 (amended): for a seated, rate-limit-passing sender the
text is trimmed and then validated: it is rejected with an
invalid-content error to the sender and no state change when the
trimmed text is empty, longer than 200 characters, or contains a
character outside the allowed set; otherwise the trimmed text itself is
stored and broadcast unchanged. -/
theorem chat_sanitize_trim_only {Pos : Type} (sid : SocketId) (roomId : String)
    (r : Room Pos) (rl : Option RateEntry) (text : String) (now msgId : Nat)
    (hseat : r.white = some sid ∨ r.black = some sid)
    (hrate : (rateStep 5 30000 now rl).1 = true) :
    (validateInput text 200 = none ↔
      ((jsTrim text).length = 0 ∨ (jsTrim text).length > 200 ∨
        (jsTrim text).data.all isAllowedChar = false)) ∧
    (validateInput text 200 = none →
      (handleChat sid roomId r rl text now msgId).1 = r ∧
      (handleChat sid roomId r rl text now msgId).2.2 =
        [Out.uni sid (Msg.chatError "Invalid message content")]) ∧
    (∀ v, validateInput text 200 = some v →
      v = jsTrim text ∧
      ∃ cm : ChatMsg, cm.message = jsTrim text ∧
        (handleChat sid roomId r rl text now msgId).2.2 =
          [Out.room roomId (Msg.chatBroadcast cm)] ∧
        (handleChat sid roomId r rl text now msgId).1.chatHistory.getLast? = some cm) := by
  have hval : ∀ v, validateInput text 200 = some v → v = jsTrim text := by
    intro v hv
    simp only [validateInput] at hv
    split at hv
    · exact absurd hv (by simp)
    · split at hv
      · exact (Option.some_inj.mp hv).symm
      · exact absurd hv (by simp)
  have hiff : validateInput text 200 = none ↔
      ((jsTrim text).length = 0 ∨ (jsTrim text).length > 200 ∨
        (jsTrim text).data.all isAllowedChar = false) := by
    simp only [validateInput]
    split
    · rename_i h
      simp only [true_iff]
      tauto
    · rename_i h
      push_neg at h
      split
      · rename_i ha
        simp only [reduceCtorEq, false_iff]
        push_neg
        refine ⟨by omega, by omega, by simp [ha]⟩
      · rename_i ha
        simp only [true_iff]
        right; right
        simpa using ha
  refine ⟨hiff, ?_, ?_⟩
  · intro hv
    constructor <;> simp [handleChat, hrate, hseat, hv]
  · intro v hv
    refine ⟨hval v hv, ?_⟩
    set cm : ChatMsg :=
      { id := msgId, message := v,
        playerRole := if r.white = some sid then "white" else "black",
        timestamp := now, socketId := sid } with hcm
    refine ⟨cm, by simp [hcm, hval v hv], ?_, ?_⟩
    · simp [handleChat, hrate, hseat, hv, hcm]
    · simp only [handleChat, hrate, hseat, hv]
      by_cases hbig : (r.chatHistory.length + 1 : Nat) > 50
      · have hk : r.chatHistory.length - 49 ≤ r.chatHistory.length := by omega
        simp [hbig, List.drop_append_of_le_length hk, List.getLast?_concat, hcm]
      · simp [hbig, hcm, List.getLast?_concat]

/-- Witness for the amended C9: a plain short message from the seated
white player is stored as its own trim and broadcast. -/
theorem chat_sanitize_trim_only_witness :
    "hi" = jsTrim "hi" ∧
    ∃ cm : ChatMsg, cm.message = jsTrim "hi" ∧
      (handleChat "s1" "RM01" demoChatRoom none "hi" 0 0).2.2 =
        [Out.room "RM01" (Msg.chatBroadcast cm)] ∧
      (handleChat "s1" "RM01" demoChatRoom none "hi" 0 0).1.chatHistory.getLast? = some cm :=
  (chat_sanitize_trim_only "s1" "RM01" demoChatRoom none "hi" 0 0
    (Or.inl (by decide)) (by decide)).2.2 "hi" (by decide)

/-- Claim C10: any seated player's `respondToDraw` with
`accepted = true` broadcasts `gameEnd {draw_agreement, winner: null}`
to the whole room regardless of any pending offer — the `Room` state
records no draw offers (the structure has no such field) and
`offerDraw` never mutates the room. -/
theorem respondToDraw_unilateral_draw {Pos : Type} (sid : SocketId) (roomId : String)
    (r : Room Pos) (hseat : r.white = some sid ∨ r.black = some sid) :
    handleRespondToDraw sid roomId r true =
      (r, [Out.room roomId (Msg.gameEnd "draw_agreement" none)]) ∧
    (∀ sid2 : SocketId, (handleOfferDraw sid2 r).1 = r) := by
  constructor
  · unfold handleRespondToDraw
    simp [hseat]
  · intro sid2
    unfold handleOfferDraw
    split
    · rcases r.black with _ | _ <;> simp
    · split
      · rcases r.white with _ | _ <;> simp
      · rfl

/-- Witness for C10: the seated black player unilaterally ends a
concrete game as a draw with no offer pending. -/
theorem respondToDraw_unilateral_draw_witness :
    handleRespondToDraw "s2" "RM01" demoChatRoom true =
      (demoChatRoom, [Out.room "RM01" (Msg.gameEnd "draw_agreement" none)]) ∧
    (∀ sid2 : SocketId, (handleOfferDraw sid2 demoChatRoom).1 = demoChatRoom) :=
  respondToDraw_unilateral_draw "s2" "RM01" demoChatRoom (Or.inr (by decide))

end RoyalChess
